import Mathlib

/-!
Verification development for the filing-to-structured-insight pipeline of the
`ai_analyst` repository (source files `app.py` and `financial_analyzer.py`).

The Python source is shallowly embedded:

- Python strings are `String` / `List Char`; `str.replace`, `str.strip`,
  `str.lower`, the `in` substring test and slicing are modelled character by
  character below (`pyReplace`, `pyStripList`, `Char.toLower`, `containsSub`,
  `String.take`).  `str.strip` and `float` strip the six ASCII whitespace
  characters; the exotic Unicode whitespace of Python is outside the fragment
  used by any claim.
- `json.loads` is modelled by `json_loads`: skip JSON whitespace at both ends,
  parse one strict JSON value, and require that nothing is left.  Numbers are
  exact rationals (every Python float is a dyadic rational, so the numeric
  fragment relevant to the claims embeds exactly); the float specials
  NaN/Infinity and `\uXXXX` surrogate pairing are outside the embedded
  fragment.  Failure (`none`) models `json.JSONDecodeError`.
- `float(...)` (used by `parse_financial_value`) is modelled by `parsePyFloat`
  over ℚ: optional surrounding whitespace, optional sign, digits with an
  optional fractional part and exponent.  The specials inf/nan and digit
  underscores do not occur in any claim input.
- Each external collaborator (the filings-search API and the generative model)
  is passed in as an explicit function argument.
- The Streamlit session dictionary `st.session_state.analysis_data` is an
  association list with Python-dict insertion semantics.
-/

/-- The three analysis task kinds of the system (spec section 3). -/
inductive TaskKind where
  | financialAnalysis
  | swotAnalysis
  | riskSimulation

/-- Parse failure taxonomy of the spec (section 7).  The source code only ever
produces `malformedOutput` (a caught `json.JSONDecodeError`); `schemaMismatch`
appears in the type so that claims about it can be stated. -/
inductive ParseFailure where
  | malformedOutput
  | schemaMismatch
deriving DecidableEq

/-- JSON values as produced by `json.loads` (dicts, lists, strings, exact
rational numbers, booleans, null). -/
inductive Json where
  | null : Json
  | bool : Bool → Json
  | num : ℚ → Json
  | str : String → Json
  | arr : List Json → Json
  | obj : List (String × Json) → Json

/-- Dynamic value passed to `parse_financial_value` (the function accepts
ints, floats, strings and anything else). -/
inductive PyVal where
  | int : ℤ → PyVal
  | float : ℚ → PyVal
  | str : String → PyVal
  | other : PyVal

/-! ## Python string primitives -/

/-- ASCII whitespace stripped by Python `str.strip()` and by `float(...)`. -/
def isPyWs (c : Char) : Bool :=
  c == ' ' || c == '\t' || c == '\n' || c == '\r' || c == '\x0b' || c == '\x0c'

/-- Python `str.strip()` on a character list. -/
def pyStripList (s : List Char) : List Char :=
  ((s.dropWhile isPyWs).reverse.dropWhile isPyWs).reverse

/-- Fuel-driven worker for `pyReplace`; fuel `s.length` always suffices
because every step consumes at least one character. -/
def pyReplaceGo (pat repl : List Char) : Nat → List Char → List Char
  | _, [] => []
  | 0, s => s
  | f + 1, c :: cs =>
    if (!pat.isEmpty) && pat.isPrefixOf (c :: cs) then
      repl ++ pyReplaceGo pat repl f ((c :: cs).drop pat.length)
    else
      c :: pyReplaceGo pat repl f cs

/-- Python `str.replace(pat, repl)`: replace every non-overlapping occurrence,
scanning left to right.  All call sites in the source use a non-empty
pattern. -/
def pyReplace (pat repl s : List Char) : List Char :=
  pyReplaceGo pat repl s.length s

/-- Python substring containment `needle in hay` on character lists. -/
def containsSub (needle : List Char) : List Char → Bool
  | [] => needle.isEmpty
  | c :: t => needle.isPrefixOf (c :: t) || containsSub needle t

/-- Python `needle in hay` on strings. -/
def pyIn (needle hay : String) : Bool := containsSub needle.data hay.data

/-! ## Strict JSON parsing (model of `json.loads`) -/

/-- The whitespace skipped by the `json` module: space, tab, newline, return. -/
def jsonWs (c : Char) : Bool := c == ' ' || c == '\t' || c == '\n' || c == '\r'

/-- Strip JSON whitespace from both ends (the decoder skips it before the
value and requires only whitespace after it). -/
def stripJsonWs (s : List Char) : List Char :=
  ((s.dropWhile jsonWs).reverse.dropWhile jsonWs).reverse

/-- Hexadecimal digit value, for `\uXXXX` escapes. -/
def hexVal (c : Char) : Option Nat :=
  if '0' ≤ c && c ≤ '9' then some (c.toNat - 48)
  else if 'a' ≤ c && c ≤ 'f' then some (c.toNat - 87)
  else if 'A' ≤ c && c ≤ 'F' then some (c.toNat - 70)
  else none

/-- Single-character JSON escapes, as escape-letter/value pairs. -/
def escPairs : List (Char × Char) :=
  [('"', '"'), ('\\', '\\'), ('/', '/'), ('b', '\x08'),
   ('f', '\x0c'), ('n', '\n'), ('r', '\r'), ('t', '\t')]

/-- Look up a single-character JSON escape. -/
def escChar (c : Char) : Option Char :=
  (escPairs.find? (fun p => p.1 == c)).map (fun p => p.2)

/-- Parse the body of a JSON string literal (the opening quote is already
consumed); strict mode rejects raw control characters. -/
def parseJsonStringChars : List Char → Option (List Char × List Char)
  | [] => none
  | '"' :: r => some ([], r)
  | '\\' :: r =>
    match r with
    | [] => none
    | e :: r2 =>
      if e == 'u' then
        match r2 with
        | a :: b :: c :: d :: r3 =>
          match hexVal a, hexVal b, hexVal c, hexVal d with
          | some ha, some hb, some hc, some hd =>
            (parseJsonStringChars r3).map
              (fun p => (Char.ofNat (((ha * 16 + hb) * 16 + hc) * 16 + hd) :: p.1, p.2))
          | _, _, _, _ => none
        | _ => none
      else
        match escChar e with
        | some c => (parseJsonStringChars r2).map (fun p => (c :: p.1, p.2))
        | none => none
  | c :: r =>
    if c.toNat < 32 then none
    else (parseJsonStringChars r).map (fun p => (c :: p.1, p.2))

/-- Decimal digit value. -/
def digitVal (c : Char) : Nat := c.toNat - 48

/-- Numeric value of a digit string. -/
def natOfDigits (l : List Char) : Nat := l.foldl (fun a c => 10 * a + digitVal c) 0

/-- Optional fractional part of a JSON number (`.digits`; consumed only when
at least one digit follows the point, as in the decoder's regex). -/
def parseJsonFracOpt (i : Nat) (s : List Char) : ℚ × List Char :=
  match s with
  | '.' :: r =>
    let fd := r.takeWhile Char.isDigit
    if fd.isEmpty then ((i : ℚ), s)
    else ((i : ℚ) + (natOfDigits fd : ℚ) / (10 : ℚ) ^ fd.length, r.dropWhile Char.isDigit)
  | _ => ((i : ℚ), s)

/-- Apply a base-ten exponent to an exact rational. -/
def applyExp (m : ℚ) (e : ℤ) : ℚ :=
  if 0 ≤ e then m * (10 : ℚ) ^ e.toNat else m / (10 : ℚ) ^ (-e).toNat

/-- Optional exponent part of a JSON number (`e[sign]digits`; consumed only
when complete, as in the decoder's regex). -/
def parseJsonExpOpt (m : ℚ) (s : List Char) : ℚ × List Char :=
  match s with
  | c :: r =>
    if c == 'e' || c == 'E' then
      let p : ℤ × List Char :=
        match r with
        | '+' :: t => (1, t)
        | '-' :: t => (-1, t)
        | _ => (1, r)
      let ed := p.2.takeWhile Char.isDigit
      if ed.isEmpty then (m, s)
      else (applyExp m (p.1 * (natOfDigits ed : ℤ)), p.2.dropWhile Char.isDigit)
    else (m, s)
  | [] => (m, s)

/-- JSON number: `-?(0|[1-9][0-9]*)(\.[0-9]+)?([eE][-+]?[0-9]+)?`.
A leading zero ends the integer part immediately, as in the decoder. -/
def parseJsonNumber (s : List Char) : Option (ℚ × List Char) :=
  let p : Bool × List Char :=
    match s with
    | '-' :: r => (true, r)
    | _ => (false, s)
  match p.2 with
  | [] => none
  | c :: r =>
    if c == '0' then
      let q1 := parseJsonFracOpt 0 r
      let q2 := parseJsonExpOpt q1.1 q1.2
      some (if p.1 then -q2.1 else q2.1, q2.2)
    else if c.isDigit then
      let ds := (c :: r).takeWhile Char.isDigit
      let r2 := (c :: r).dropWhile Char.isDigit
      let q1 := parseJsonFracOpt (natOfDigits ds) r2
      let q2 := parseJsonExpOpt q1.1 q1.2
      some (if p.1 then -q2.1 else q2.1, q2.2)
    else none

/-- Python-dict insertion: overwrite an existing key in place, otherwise
append (dicts preserve first-insertion order). -/
def insertKey (kvs : List (String × Json)) (k : String) (v : Json) :
    List (String × Json) :=
  if kvs.any (fun p => p.1 == k) then
    kvs.map (fun p => if p.1 == k then (k, v) else p)
  else kvs ++ [(k, v)]

mutual

/-- Parse one JSON value (leading whitespace allowed), returning the value and
the unconsumed remainder.  Fuel `2 * length + 2` always suffices: every two
fuel units consume at least one character. -/
def parseJsonValue : Nat → List Char → Option (Json × List Char)
  | 0, _ => none
  | f + 1, s =>
    match s.dropWhile jsonWs with
    | [] => none
    | 'n' :: 'u' :: 'l' :: 'l' :: r => some (.null, r)
    | 't' :: 'r' :: 'u' :: 'e' :: r => some (.bool true, r)
    | 'f' :: 'a' :: 'l' :: 's' :: 'e' :: r => some (.bool false, r)
    | '"' :: r => (parseJsonStringChars r).map (fun p => (.str (String.mk p.1), p.2))
    | '[' :: r =>
      match r.dropWhile jsonWs with
      | ']' :: r2 => some (.arr [], r2)
      | r1 => parseJsonArrayItems f r1 []
    | '\x7b' :: r =>
      match r.dropWhile jsonWs with
      | '\x7d' :: r2 => some (.obj [], r2)
      | r1 => parseJsonObjectMembers f r1 []
    | t => (parseJsonNumber t).map (fun p => (.num p.1, p.2))

/-- Comma-separated items of a non-empty JSON array. -/
def parseJsonArrayItems : Nat → List Char → List Json → Option (Json × List Char)
  | 0, _, _ => none
  | f + 1, s, acc =>
    match parseJsonValue f s with
    | none => none
    | some (v, r) =>
      match r.dropWhile jsonWs with
      | ',' :: r2 => parseJsonArrayItems f r2 (acc ++ [v])
      | ']' :: r2 => some (.arr (acc ++ [v]), r2)
      | _ => none

/-- Comma-separated members of a non-empty JSON object. -/
def parseJsonObjectMembers : Nat → List Char → List (String × Json) →
    Option (Json × List Char)
  | 0, _, _ => none
  | f + 1, s, acc =>
    match s with
    | '"' :: r =>
      match parseJsonStringChars r with
      | none => none
      | some (kcs, r1) =>
        match r1.dropWhile jsonWs with
        | ':' :: r2 =>
          match parseJsonValue f r2 with
          | none => none
          | some (v, r3) =>
            match r3.dropWhile jsonWs with
            | ',' :: r4 => parseJsonObjectMembers f (r4.dropWhile jsonWs) (insertKey acc (String.mk kcs) v)
            | '\x7d' :: r4 => some (.obj (insertKey acc (String.mk kcs) v), r4)
            | _ => none
        | _ => none
    | _ => none

end

/-- Model of `json.loads`: whitespace around a single JSON value is allowed,
anything else after the value is an error (`none` = `json.JSONDecodeError`). -/
def json_loads (s : List Char) : Option Json :=
  match parseJsonValue (2 * (stripJsonWs s).length + 2) (stripJsonWs s) with
  | some (v, []) => some v
  | _ => none

/-! ## The response "parser" of `app.py`

All three tabs run the identical expression
`json.loads(json_str.strip().replace("```json", "").replace("```", ""))`
(`app.py` lines 152, 207 and 234), catching only `json.JSONDecodeError`.
The task kind plays no role in parsing or validation. -/

/-- The expression `json_str.strip().replace("```json", "").replace("```", "")`. -/
def fence_clean (raw : String) : List Char :=
  pyReplace "```".data [] (pyReplace "```json".data [] (pyStripList raw.data))

/-- The response parser: fence-strip, then `json.loads`; a decode error is the
`malformedOutput` failure.  The source performs no schema validation, so the
`kind` argument is unused, exactly as at the three call sites. -/
def parse (raw : String) (kind : TaskKind) : Except ParseFailure Json :=
  match json_loads (fence_clean raw) with
  | some j => Except.ok j
  | none => Except.error ParseFailure.malformedOutput

/-- Modelled from the spec: presence test for a required top-level key (the
source performs no such check; this definition only serves to state claims
about schema validation). -/
def Json.hasKey : Json → String → Bool
  | .obj kvs, k => kvs.any (fun p => p.1 == k)
  | _, _ => false

/-! ## Model of Python `float(...)` over exact rationals

Grammar: optional surrounding whitespace, optional sign, digits with an
optional fractional part and an optional complete exponent.  The specials
`inf`/`nan` and digit underscores are outside the fragment any claim
touches; finite decimal literals are represented exactly in ℚ. -/

/-- Optional leading sign; `true` means negative. -/
def parseSign (s : List Char) : Bool × List Char :=
  match s with
  | [] => (false, [])
  | c :: r =>
    if c == '+' then (false, r)
    else if c == '-' then (true, r)
    else (false, c :: r)

/-- Optional leading sign as an integer factor. -/
def parseIntSign (s : List Char) : ℤ × List Char :=
  match s with
  | [] => (1, [])
  | c :: r =>
    if c == '+' then (1, r)
    else if c == '-' then (-1, r)
    else (1, c :: r)

/-- Optional fractional part `.digits*` (Python allows `1.` so the digit list
may be empty). -/
def parseFracPart (s : List Char) : Option (List Char) × List Char :=
  match s with
  | [] => (none, [])
  | c :: r =>
    if c == '.' then (some (r.takeWhile Char.isDigit), r.dropWhile Char.isDigit)
    else (none, c :: r)

/-- Exponent part: either nothing is left, or a complete `e[sign]digits`
consuming the entire rest; anything else is a parse error. -/
def parseExpPart (s : List Char) : Option ℤ :=
  match s with
  | [] => some 0
  | c :: r =>
    if c == 'e' || c == 'E' then
      let p := parseIntSign r
      let ed := p.2.takeWhile Char.isDigit
      let r2 := p.2.dropWhile Char.isDigit
      if ed.isEmpty || !r2.isEmpty then none else some (p.1 * (natOfDigits ed : ℤ))
    else none

/-- Mantissa value of integer and fractional digit parts. -/
def floatMantissa (ip : List Char) (fp : Option (List Char)) : ℚ :=
  match fp with
  | none => (natOfDigits ip : ℚ)
  | some f => (natOfDigits ip : ℚ) + (natOfDigits f : ℚ) / (10 : ℚ) ^ f.length

/-- Parse a (whitespace-stripped) float literal. -/
def pyFloatCore (s : List Char) : Option ℚ :=
  let p1 := parseSign s
  let ip := p1.2.takeWhile Char.isDigit
  let s2 := p1.2.dropWhile Char.isDigit
  let p3 := parseFracPart s2
  if ip.isEmpty && (match p3.1 with | none => true | some f => f.isEmpty) then none
  else
    match parseExpPart p3.2 with
    | none => none
    | some e =>
      let m := floatMantissa ip p3.1
      some (applyExp (if p1.1 then -m else m) e)

/-- Model of Python `float(str)`: `none` is a raised `ValueError`. -/
def parsePyFloat (s : List Char) : Option ℚ := pyFloatCore (pyStripList s)

/-! ## The Numeric Normalizer (`parse_financial_value`, `app.py` lines 82-99) -/

/-- The cleaning pass `value_str.lower().replace('$', '').replace(',', '').replace('%', '')`. -/
def pfv_clean (s : String) : List Char :=
  pyReplace ['%'] [] (pyReplace [','] [] (pyReplace ['$'] [] (s.data.map Char.toLower)))

/-- Model of `parse_financial_value`: ints and floats pass through, non-strings give 0,
strings are cleaned, a `b`/`m` suffix picks the multiplier (checking `b`
first) and removes every occurrence of that letter, then `float(...)` times
the multiplier, with 0 on `ValueError`. -/
def parse_financial_value : PyVal → ℚ
  | .int n => (n : ℚ)
  | .float q => q
  | .other => 0
  | .str s =>
    let v := pfv_clean s
    if v.contains 'b' then
      match parsePyFloat (pyReplace ['b'] [] v) with
      | some q => q * 1000000000
      | none => 0
    else if v.contains 'm' then
      match parsePyFloat (pyReplace ['m'] [] v) with
      | some q => q * 1000000
      | none => 0
    else
      match parsePyFloat v with
      | some q => q * 1
      | none => 0

/-! ## A model of `json.dumps` (default separators and `ensure_ascii`)

Needed only to state the fence round-trip claim over serialized objects.
Integer-valued numbers print without a point; other rationals arising from
floats are dyadic, hence have a finite decimal expansion.  Rationals with no
decimal expansion have no Python-float counterpart; their rendering below is
an arbitrary total fallback and no theorem depends on it. -/

/-- Lower-case hexadecimal digit. -/
def hexDigitChar (n : Nat) : Char :=
  if n < 10 then Char.ofNat (48 + n) else Char.ofNat (87 + n)

/-- Escape one character as `json.dumps` does with `ensure_ascii=True`
(astral-plane surrogate pairing is outside the modelled fragment). -/
def escapeJsonChar (c : Char) : String :=
  if c == '"' then "\\\""
  else if c == '\\' then "\\\\"
  else if c == '\n' then "\\n"
  else if c == '\r' then "\\r"
  else if c == '\t' then "\\t"
  else if c == '\x08' then "\\b"
  else if c == '\x0c' then "\\f"
  else if c.toNat < 32 || 126 < c.toNat then
    String.mk ['\\', 'u', hexDigitChar (c.toNat / 4096 % 16), hexDigitChar (c.toNat / 256 % 16),
      hexDigitChar (c.toNat / 16 % 16), hexDigitChar (c.toNat % 16)]
  else String.singleton c

/-- Serialize a string literal with quotes and escapes. -/
def encodeJsonString (s : String) : String :=
  "\"" ++ String.join (s.data.map escapeJsonChar) ++ "\""

/-- Smallest power of ten the denominator divides, if any within range. -/
def findPow10 (d : Nat) : Option Nat :=
  (List.range 64).find? (fun k => 10 ^ k % d == 0)

/-- Decimal rendering of a rational (exact for denominators dividing a power
of ten, which covers every Python float; fallback otherwise). -/
def decimalOfRat (q : ℚ) : String :=
  if q.den = 1 then toString q.num
  else
    match findPow10 q.den with
    | some k =>
      let a := (q.num * ((10 : ℤ) ^ k / (q.den : ℤ))).natAbs
      let ds := toString a
      let padded :=
        if ds.length ≤ k then String.mk (List.replicate (k + 1 - ds.length) '0') ++ ds else ds
      (if q.num < 0 then "-" else "") ++ padded.take (padded.length - k) ++ "." ++
        padded.drop (padded.length - k)
    | none => toString q.num ++ "/" ++ toString q.den

mutual

/-- Model of `json.dumps` with default separators `", "` and `": "`. -/
def Json.serialize : Json → String
  | .null => "null"
  | .bool true => "true"
  | .bool false => "false"
  | .num q => decimalOfRat q
  | .str s => encodeJsonString s
  | .arr xs => "[" ++ serializeList xs ++ "]"
  | .obj kvs => "\x7b" ++ serializeMembers kvs ++ "\x7d"

/-- Comma-separated serialization of array elements. -/
def serializeList : List Json → String
  | [] => ""
  | [x] => Json.serialize x
  | x :: y :: t => Json.serialize x ++ ", " ++ serializeList (y :: t)

/-- Comma-separated serialization of object members. -/
def serializeMembers : List (String × Json) → String
  | [] => ""
  | [(k, v)] => encodeJsonString k ++ ": " ++ Json.serialize v
  | (k, v) :: y :: t => encodeJsonString k ++ ": " ++ Json.serialize v ++ ", " ++ serializeMembers (y :: t)

end

/-! ## FilingLocator (`financial_analyzer.py`, `get_10k_report_text`) -/

/-- One entry of a filing's `documentFormatFiles` list. -/
structure DocumentFormatFile where
  documentUrl : String

/-- The fields of a filing record that the source consumes. -/
structure Filing where
  linkToFilingDetails : String
  documentFormatFiles : List DocumentFormatFile

/-- The query dictionary built for the filings-search collaborator. -/
structure SecQuery where
  queryString : String
  fromOffset : String
  size : String
  sortFiledAtDescending : Bool

/-- The query of `get_10k_report_text`: full-text ticker and form-type
filter, first page, one result, most recently filed first. -/
def build_10k_query (ticker : String) : SecQuery :=
  ⟨"ticker:" ++ ticker ++ " AND formType:\"10-K\"", "0", "1", true⟩

/-- Model of `get_10k_report_text`, with the filings-search collaborator passed in as
a function (`Except.error e` models a raised exception with message `e`).
An empty result list returns the not-found sentinel; accessing
`documentFormatFiles[0]` of a filing with an empty list raises `IndexError`,
which the bare `except` turns into the generic fetch-error tuple, with
Python's `IndexError` message. -/
def get_10k_report_text (ticker : String)
    (query_api : SecQuery → Except String (List Filing)) : String × Option String :=
  match query_api (build_10k_query ticker) with
  | .error e => ("Could not fetch data from SEC EDGAR. Error: " ++ e, none)
  | .ok [] => ("No 10-K filings found for this ticker.", none)
  | .ok (top :: _) =>
    match top.documentFormatFiles with
    | [] => ("Could not fetch data from SEC EDGAR. Error: list index out of range", none)
    | doc :: _ => (top.linkToFilingDetails, some doc.documentUrl)

/-! ## Session state and the Run Full Analysis handler (`app.py` lines 126-135) -/

/-- The session dict `st.session_state.analysis_data`: a Python dict from string keys to
stored values. -/
abbrev AnalysisData := List (String × Json)

/-- Python dict assignment `d[k] = v`. -/
def put_data (d : AnalysisData) (k : String) (v : Json) : AnalysisData :=
  if d.any (fun p => p.1 == k) then
    d.map (fun p => if p.1 == k then (k, v) else p)
  else d ++ [(k, v)]

/-- Python dict read `d.get(k)` / `k in d` combined: `none` when absent. -/
def get_data (d : AnalysisData) (k : String) : Option Json :=
  (d.find? (fun p => p.1 == k)).map (fun p => p.2)

/-- The reset `st.session_state.analysis_data` assignment (line 127): the whole dict is
replaced by a fresh empty one, regardless of previous contents. -/
def reset_data (_d : AnalysisData) : AnalysisData := []

/-- Outcome of the button handler: the new session dict, and whether
`st.success` (true) or `st.error` (false) was shown. -/
structure HandlerResult where
  data : AnalysisData
  success : Bool

/-- The `Run Full Analysis` button handler: reset the session dict, locate
the filing, and either show the returned message as an error (when it
contains `"Could not fetch"`) or store it as `filing_url` together with the
ticker as `company_name` and report success. -/
def run_full_analysis (ticker : String)
    (query_api : SecQuery → Except String (List Filing))
    (st : AnalysisData) : HandlerResult :=
  let d0 := reset_data st
  let r := get_10k_report_text ticker query_api
  if pyIn "Could not fetch" r.1 then ⟨d0, false⟩
  else ⟨put_data (put_data d0 "filing_url" (Json.str r.1)) "company_name" (Json.str ticker), true⟩

/-! ## PromptBuilder (`financial_analyzer.py` lines 36-111)

The triple-quoted f-string templates are reproduced verbatim; the single
ASCII quote character is assembled via `sglq`. -/

/-- The ASCII single-quote character as a string. -/
def sglq : String := String.singleton '\x27'

/-- The `input_prompt` of `conduct_financial_analysis` (line 38): a URL reference
is embedded whole, inline text is sliced to its first 30000 characters. -/
def financial_input_prompt (document_content : String) (is_url : Bool) : String :=
  if is_url then "From the 10-K report at the URL: " ++ document_content
  else "From the following 10-K report text: " ++ document_content.take 30000

/-- The fixed template of the financial-analysis prompt after the document
reference. -/
def financial_prompt_tail : String :=
  "\n    Perform a financial analysis. Extract key data points in a structured JSON format.\n    1.  **Revenue Analysis**: Identify total revenue for the last two fiscal years and calculate the year-over-year growth rate.\n    2.  **Profitability**: Find the Gross Profit and Net Income for the last two years. Calculate the gross margin and net profit margin for the most recent year.\n    3.  **Cost Structure**: Detail R&D, and SG&A as a percentage of total revenue for the most recent year.\n    Provide the output ONLY in valid JSON format. Example:\n    \x7b\n      \"revenue_analysis\": \x7b \"current_year_revenue\": \"100B\", \"previous_year_revenue\": \"90B\", \"growth_rate\": \"11.1%\" \x7d,\n      \"profitability\": \x7b \"net_income\": \"20B\", \"net_margin\": \"20%\" \x7d,\n      \"cost_structure\": \x7b \"R&D\": \"15%\", \"SG&A\": \"25%\" \x7d\n    \x7d\n    "

/-- The prompt built by `conduct_financial_analysis`. -/
def conduct_financial_analysis_prompt (document_content : String) (is_url : Bool) : String :=
  "\n    " ++ financial_input_prompt document_content is_url ++ financial_prompt_tail

/-- Model of `conduct_financial_analysis`: build the prompt and call the generative
model (`model.generate_content(prompt).text` passed in as a function). -/
def conduct_financial_analysis (model : String → String)
    (document_content : String) (is_url : Bool) : String :=
  model (conduct_financial_analysis_prompt document_content is_url)

/-- The `input_prompt` of `conduct_swot_analysis` (line 57). -/
def swot_input_prompt (document_content company_name : String) (is_url : Bool) : String :=
  if is_url then
    "From the 10-K report for " ++ company_name ++ " at the URL: " ++ document_content
  else
    "From the following 10-K report text for " ++ company_name ++ ": " ++
      document_content.take 30000

/-- The fixed template of the SWOT prompt after the document reference. -/
def swot_prompt_tail : String :=
  "\n    Analyze the " ++ sglq ++ "Business Overview" ++ sglq ++ ", " ++ sglq ++ "Competition" ++ sglq ++
  ", and " ++ sglq ++ "Risk Factors" ++ sglq ++
  " sections to create a SWOT analysis.\n    For each category (Strengths, Weaknesses, Opportunities, Threats), provide 3 concise bullet points.\n    \n    Provide the output ONLY in valid JSON format. Example:\n    \x7b\n      \"strengths\": [\"Strong brand recognition\", \"Diverse product portfolio\", \"Large user base\"],\n      \"weaknesses\": [\"High dependence on a single product\", \"Recent data privacy concerns\", \"Slower growth in emerging markets\"],\n      \"opportunities\": [\"Expansion into AI and cloud services\", \"Strategic acquisitions of startups\", \"Growing demand for digital entertainment\"],\n      \"threats\": [\"Intense competition from tech giants\", \"Evolving regulatory landscape\", \"Global economic downturn impacting consumer spending\"]\n    \x7d\n    "

/-- The prompt built by `conduct_swot_analysis`. -/
def conduct_swot_analysis_prompt (document_content company_name : String)
    (is_url : Bool) : String :=
  "\n    " ++ swot_input_prompt document_content company_name is_url ++ swot_prompt_tail

/-- Model of `conduct_swot_analysis`: build the prompt and call the model. -/
def conduct_swot_analysis (model : String → String)
    (document_content company_name : String) (is_url : Bool) : String :=
  model (conduct_swot_analysis_prompt document_content company_name is_url)

/-- The `input_prompt` of `conduct_risk_simulation` (line 76); identical in shape
to the SWOT one. -/
def risk_input_prompt (document_content company_name : String) (is_url : Bool) : String :=
  if is_url then
    "From the 10-K report for " ++ company_name ++ " at the URL: " ++ document_content
  else
    "From the following 10-K report text for " ++ company_name ++ ": " ++
      document_content.take 30000

/-- The fixed risk-simulation template before the document reference. -/
def risk_prompt_head : String :=
  "\n    You are a strategic advisor to a CFO.\n    CONTEXT:\n    - **Company" ++ sglq ++
  "s 10-K Report**: "

/-- The fixed risk-simulation template between the document reference and the
market-shock text. -/
def risk_prompt_mid : String := "\n    - **Hypothetical Market Shock**: \""

/-- The fixed risk-simulation template after the market-shock text. -/
def risk_prompt_tail : String :=
  "\"\n\n    TASK:\n    Analyze the " ++ sglq ++ "Risk Factors" ++ sglq ++
  " section of the report. Identify the most relevant stated risk. Then, generate three potential impact scenarios (Best Case, Likely Case, Worst Case) from this market shock.\n    For each scenario, provide:\n    1. A brief description of the outcome.\n    2. An estimated quantitative impact on revenue or margins.\n    3. One strategic action to mitigate the damage or capitalize on the situation.\n\n    Provide the output ONLY in valid JSON format. Example:\n    \x7b\n      \"relevant_risk\": \"Dependence on international supply chains.\",\n      \"best_case\": \x7b\n        \"scenario\": \"Minor supply chain disruptions are quickly rerouted with minimal delay.\",\n        \"impact\": \"-1% impact on gross margin for one quarter.\",\n        \"mitigation\": \"Activate secondary supplier agreements and increase short-term inventory.\"\n      \x7d,\n      \"likely_case\": \x7b\n        \"scenario\": \"Significant delays and increased logistics costs for two quarters.\",\n        \"impact\": \"-5% revenue and -3% gross margin for the next six months.\",\n        \"mitigation\": \"Absorb costs and communicate transparently with customers about delays. Expedite diversification of supplier base.\"\n      \x7d,\n      \"worst_case\": \x7b\n        \"scenario\": \"A key supplier halts production, causing major product shortages.\",\n        \"impact\": \"-15% revenue for the fiscal year.\",\n        \"mitigation\": \"Immediately seek alternative sourcing and consider a temporary price increase on existing inventory to manage demand.\"\n      \x7d\n    \x7d\n    "

/-- The prompt built by `conduct_risk_simulation`. -/
def conduct_risk_simulation_prompt (document_content company_name market_shock : String)
    (is_url : Bool) : String :=
  risk_prompt_head ++ risk_input_prompt document_content company_name is_url ++
    risk_prompt_mid ++ market_shock ++ risk_prompt_tail

/-- Model of `conduct_risk_simulation`: build the prompt and call the model. -/
def conduct_risk_simulation (model : String → String)
    (document_content company_name market_shock : String) (is_url : Bool) : String :=
  model (conduct_risk_simulation_prompt document_content company_name market_shock is_url)

/-! ## Helper lemmas about the string primitives -/

/-- Boolean prefix test as an explicit decomposition. -/
theorem isPrefixOf_iff_exists (p : List Char) :
    ∀ (l : List Char), (p.isPrefixOf l = true ↔ ∃ t, l = p ++ t) := by
  induction p with
  | nil =>
    intro l
    constructor
    · intro _; exact ⟨l, rfl⟩
    · intro _; cases l <;> rfl
  | cons a ps ih =>
    intro l
    cases l with
    | nil =>
      constructor
      · intro h; simp [List.isPrefixOf] at h
      · rintro ⟨t, h⟩; simp at h
    | cons b ls =>
      constructor
      · intro h
        simp only [List.isPrefixOf, Bool.and_eq_true, beq_iff_eq] at h
        obtain ⟨rfl, h2⟩ := h
        obtain ⟨t, rfl⟩ := (ih ls).mp h2
        exact ⟨t, rfl⟩
      · rintro ⟨t, h⟩
        injection h with h1 h2
        subst h1
        subst h2
        show ((b == b) && ps.isPrefixOf (ps ++ t)) = true
        rw [Bool.and_eq_true, beq_iff_eq]
        exact ⟨rfl, (ih (ps ++ t)).mpr ⟨t, rfl⟩⟩

/-- Any fuel at least the input length gives the same result. -/
theorem pyReplaceGo_fuel (pat repl : List Char) :
    ∀ (f g : Nat) (s : List Char), s.length ≤ f → s.length ≤ g →
      pyReplaceGo pat repl f s = pyReplaceGo pat repl g s := by
  intro f
  induction f with
  | zero =>
    intro g s hf _
    have hs : s = [] := List.length_eq_zero.mp (Nat.le_zero.mp hf)
    subst hs
    cases g <;> rfl
  | succ f ih =>
    intro g s hf hg
    cases s with
    | nil => cases g <;> rfl
    | cons c cs =>
      cases g with
      | zero => simp at hg
      | succ g =>
        simp only [List.length_cons] at hf hg
        simp only [pyReplaceGo]
        cases hcond : (!pat.isEmpty) && pat.isPrefixOf (c :: cs) with
        | true =>
          have hpat : 0 < pat.length := by
            have h1 : pat.isEmpty = false := by
              cases hp : pat.isEmpty
              · rfl
              · rw [hp] at hcond; simp at hcond
            cases pat
            · simp [List.isEmpty] at h1
            · simp
          have hlen : ((c :: cs).drop pat.length).length ≤ f := by
            simp only [List.length_drop, List.length_cons]
            omega
          have hleng : ((c :: cs).drop pat.length).length ≤ g := by
            simp only [List.length_drop, List.length_cons]
            omega
          simp [ih g _ hlen hleng]
        | false =>
          have h1 : cs.length ≤ f := by omega
          have h2 : cs.length ≤ g := by omega
          simp [ih g cs h1 h2]

/-- Replacement on the empty string. -/
theorem pyReplace_nil (pat repl : List Char) : pyReplace pat repl [] = [] := rfl

/-- One-step unfolding of `pyReplace`. -/
theorem pyReplace_step (pat repl : List Char) (c : Char) (cs : List Char) :
    pyReplace pat repl (c :: cs) =
      if (!pat.isEmpty) && pat.isPrefixOf (c :: cs) then
        repl ++ pyReplace pat repl ((c :: cs).drop pat.length)
      else c :: pyReplace pat repl cs := by
  show pyReplaceGo pat repl (cs.length + 1) (c :: cs) = _
  simp only [pyReplaceGo]
  cases hcond : (!pat.isEmpty) && pat.isPrefixOf (c :: cs) with
  | true =>
    have hpat : 0 < pat.length := by
      have h1 : pat.isEmpty = false := by
        cases hp : pat.isEmpty
        · rfl
        · rw [hp] at hcond; simp at hcond
      cases pat
      · simp [List.isEmpty] at h1
      · simp
    have hgo : pyReplaceGo pat repl cs.length ((c :: cs).drop pat.length)
        = pyReplace pat repl ((c :: cs).drop pat.length) := by
      apply pyReplaceGo_fuel
      · simp only [List.length_drop, List.length_cons]; omega
      · exact le_rfl
    simpa using hgo
  | false =>
    simp
    rfl

/-- A character outside the pattern is copied unchanged. -/
theorem pyReplace_cons_not_mem (pat repl : List Char) (c : Char) (hc : c ∉ pat)
    (l : List Char) : pyReplace pat repl (c :: l) = c :: pyReplace pat repl l := by
  rw [pyReplace_step]
  have hcond : ((!pat.isEmpty) && pat.isPrefixOf (c :: l)) = false := by
    cases pat with
    | nil => rfl
    | cons p ps =>
      have hp : (p == c) = false :=
        beq_eq_false_iff_ne.mpr (fun h => hc (h ▸ List.mem_cons_self p ps))
      show (true && ((p == c) && ps.isPrefixOf l)) = false
      rw [Bool.true_and, hp, Bool.false_and]
  rw [hcond]
  simp

/-- An occurrence of the pattern at the current position is replaced. -/
theorem pyReplace_exact (pat repl rest : List Char) (hp : pat ≠ []) :
    pyReplace pat repl (pat ++ rest) = repl ++ pyReplace pat repl rest := by
  cases pat with
  | nil => exact absurd rfl hp
  | cons p ps =>
    rw [show (p :: ps) ++ rest = p :: (ps ++ rest) from rfl, pyReplace_step]
    have hcond : ((!(p :: ps).isEmpty) && (p :: ps).isPrefixOf (p :: (ps ++ rest))) = true := by
      simp only [List.isEmpty, Bool.not_false, Bool.true_and]
      exact (isPrefixOf_iff_exists (p :: ps) (p :: (ps ++ rest))).mpr ⟨rest, rfl⟩
    have hdrop : (p :: (ps ++ rest)).drop (p :: ps).length = rest := by
      have := List.drop_left (p :: ps) rest
      simpa using this
    rw [hcond, hdrop]
    simp

/-- Replacement distributes over an append whose boundary character is not in
the pattern: no occurrence can span the boundary. -/
theorem pyReplace_append_cons (pat repl : List Char) (c : Char) (hc : c ∉ pat)
    (y : List Char) :
    ∀ (x : List Char),
      pyReplace pat repl (x ++ c :: y) = pyReplace pat repl x ++ pyReplace pat repl (c :: y) := by
  suffices H : ∀ (n : Nat) (x : List Char), x.length ≤ n →
      pyReplace pat repl (x ++ c :: y) = pyReplace pat repl x ++ pyReplace pat repl (c :: y) by
    intro x
    exact H x.length x le_rfl
  intro n
  induction n with
  | zero =>
    intro x hx
    have hx0 : x = [] := List.length_eq_zero.mp (Nat.le_zero.mp hx)
    subst hx0
    simp [pyReplace_nil]
  | succ n ih =>
    intro x hx
    cases x with
    | nil => simp [pyReplace_nil]
    | cons a x' =>
      simp only [List.length_cons] at hx
      rw [List.cons_append, pyReplace_step]
      cases hcond : (!pat.isEmpty) && pat.isPrefixOf (a :: (x' ++ c :: y)) with
      | true =>
        have hpat : pat ≠ [] := by
          intro hnil
          rw [hnil] at hcond
          simp [List.isEmpty] at hcond
        have hpat1 : 0 < pat.length := List.length_pos.mpr hpat
        have hpre : pat.isPrefixOf (a :: (x' ++ c :: y)) = true := by
          rcases Bool.and_eq_true_iff.mp hcond with ⟨_, h2⟩
          exact h2
        obtain ⟨t, ht⟩ := (isPrefixOf_iff_exists pat (a :: (x' ++ c :: y))).mp hpre
        have hten : (a :: x') ++ (c :: y) = pat ++ t := by
          rw [← ht]
          rfl
        by_cases hlen : pat.length ≤ (a :: x').length
        · have htake : pat = (a :: x').take pat.length := by
            have h1 : ((a :: x') ++ (c :: y)).take pat.length = pat := by
              rw [hten, List.take_left]
            rw [List.take_append_eq_append_take, Nat.sub_eq_zero_of_le hlen] at h1
            simp at h1
            exact h1.symm
          have hsplit : (a :: x') = pat ++ (a :: x').drop pat.length := by
            conv_lhs => rw [← List.take_append_drop pat.length (a :: x'), ← htake]
          have hdroplen : ((a :: x').drop pat.length).length ≤ n := by
            simp only [List.length_drop, List.length_cons]
            omega
          have hdropapp : ((a :: x') ++ c :: y).drop pat.length
              = (a :: x').drop pat.length ++ c :: y := by
            rw [List.drop_append_eq_append_drop, Nat.sub_eq_zero_of_le hlen]
            simp
          calc repl ++ pyReplace pat repl ((a :: (x' ++ c :: y)).drop pat.length)
              = repl ++ pyReplace pat repl ((a :: x').drop pat.length ++ c :: y) := by
                rw [show a :: (x' ++ c :: y) = (a :: x') ++ c :: y from rfl, hdropapp]
            _ = repl ++ (pyReplace pat repl ((a :: x').drop pat.length)
                  ++ pyReplace pat repl (c :: y)) := by
                rw [ih _ hdroplen]
            _ = (repl ++ pyReplace pat repl ((a :: x').drop pat.length))
                  ++ pyReplace pat repl (c :: y) := by
                rw [List.append_assoc]
            _ = pyReplace pat repl (a :: x') ++ pyReplace pat repl (c :: y) := by
                conv_rhs => rw [hsplit, pyReplace_exact pat repl _ hpat]
        · exfalso
          have hlt : (a :: x').length < pat.length := Nat.lt_of_not_le hlen
          have htake2 : pat = (a :: x') ++ (c :: y).take (pat.length - (a :: x').length) := by
            have h1 : ((a :: x') ++ (c :: y)).take pat.length = pat := by
              rw [hten, List.take_left]
            rw [List.take_append_eq_append_take,
              List.take_of_length_le (Nat.le_of_lt hlt)] at h1
            exact h1.symm
          have hmem : c ∈ pat := by
            rw [htake2]
            have hpos : 0 < pat.length - (a :: x').length := by omega
            cases hk : pat.length - (a :: x').length with
            | zero => omega
            | succ k =>
              simp [List.take_succ_cons]
          exact hc hmem
      | false =>
        have hcond' : ((!pat.isEmpty) && pat.isPrefixOf (a :: x')) = false := by
          cases hcc : (!pat.isEmpty) && pat.isPrefixOf (a :: x') with
          | false => rfl
          | true =>
            exfalso
            rcases Bool.and_eq_true_iff.mp hcc with ⟨h1, h2⟩
            obtain ⟨t, ht⟩ := (isPrefixOf_iff_exists pat (a :: x')).mp h2
            have : pat.isPrefixOf (a :: (x' ++ c :: y)) = true := by
              apply (isPrefixOf_iff_exists pat _).mpr
              refine ⟨t ++ c :: y, ?_⟩
              rw [show a :: (x' ++ c :: y) = (a :: x') ++ c :: y from rfl, ht,
                List.append_assoc]
            rw [h1, this] at hcond
            simp at hcond
        rw [pyReplace_step pat repl a x', hcond']
        simp only [Bool.false_eq_true, if_false]
        have hx' : x'.length ≤ n := by omega
        rw [ih x' hx']
        simp

/-- Characters outside the pattern survive replacement with an empty (or any)
replacement list, in particular when deleting occurrences. -/
theorem mem_pyReplace_of_not_mem (pat repl : List Char) (c : Char) (hc : c ∉ pat) :
    ∀ (s : List Char), c ∈ s → c ∈ pyReplace pat repl s := by
  suffices H : ∀ (n : Nat) (s : List Char), s.length ≤ n → c ∈ s → c ∈ pyReplace pat repl s by
    intro s
    exact H s.length s le_rfl
  intro n
  induction n with
  | zero =>
    intro s hs hmem
    have hs0 : s = [] := List.length_eq_zero.mp (Nat.le_zero.mp hs)
    subst hs0
    simp at hmem
  | succ n ih =>
    intro s hs hmem
    cases s with
    | nil => simp at hmem
    | cons a s' =>
      simp only [List.length_cons] at hs
      rw [pyReplace_step]
      cases hcond : (!pat.isEmpty) && pat.isPrefixOf (a :: s') with
      | true =>
        have hpat : pat ≠ [] := by
          intro hnil
          rw [hnil] at hcond
          simp [List.isEmpty] at hcond
        have hpat1 : 0 < pat.length := List.length_pos.mpr hpat
        have hpre : pat.isPrefixOf (a :: s') = true := by
          rcases Bool.and_eq_true_iff.mp hcond with ⟨_, h2⟩
          exact h2
        obtain ⟨t, ht⟩ := (isPrefixOf_iff_exists pat (a :: s')).mp hpre
        have hct : c ∈ t := by
          rw [ht] at hmem
          rcases List.mem_append.mp hmem with h | h
          · exact absurd h hc
          · exact h
        have hdrop : (a :: s').drop pat.length = t := by
          rw [ht]
          exact List.drop_left pat t
        have hlen : ((a :: s').drop pat.length).length ≤ n := by
          simp only [List.length_drop, List.length_cons]
          omega
        have hmem2 := ih _ hlen (hdrop ▸ hct)
        have hgoal : c ∈ repl ++ pyReplace pat repl ((a :: s').drop pat.length) :=
          List.mem_append.mpr (Or.inr hmem2)
        simpa using hgoal
      | false =>
        have hgoal : c ∈ a :: pyReplace pat repl s' := by
          rcases List.mem_cons.mp hmem with h | h
          · exact h ▸ List.mem_cons_self _ _
          · have hlen : s'.length ≤ n := by omega
            exact List.mem_cons_of_mem _ (ih s' hlen h)
        simpa using hgoal

/-- Dropping while a predicate holds keeps a list headed by a failing character. -/
theorem list_dropWhile_cons_false {p : Char → Bool} {a : Char} (ha : p a = false)
    (l : List Char) : (a :: l).dropWhile p = a :: l := by
  simp [List.dropWhile_cons, ha]

/-- Dropping while a predicate holds drops a passing head character. -/
theorem list_dropWhile_cons_true {p : Char → Bool} {a : Char} (ha : p a = true)
    (l : List Char) : (a :: l).dropWhile p = l.dropWhile p := by
  simp [List.dropWhile_cons, ha]

/-- Python `str.strip()` is the identity on a string with non-whitespace ends. -/
theorem pyStripList_of_ends {a b : Char} (ha : isPyWs a = false) (hb : isPyWs b = false)
    (l : List Char) : pyStripList (a :: (l ++ [b])) = a :: (l ++ [b]) := by
  unfold pyStripList
  rw [list_dropWhile_cons_false ha]
  rw [show (a :: (l ++ [b])).reverse = b :: (l.reverse ++ [a]) by simp]
  rw [list_dropWhile_cons_false hb]
  simp

/-- Leading JSON whitespace is ignored by the decoder's stripping. -/
theorem stripJsonWs_cons_ws {a : Char} (ha : jsonWs a = true) (l : List Char) :
    stripJsonWs (a :: l) = stripJsonWs l := by
  unfold stripJsonWs
  rw [list_dropWhile_cons_true ha]

/-- Trailing JSON whitespace is ignored by the decoder's stripping. -/
theorem stripJsonWs_append_ws {b : Char} (hb : jsonWs b = true) (l : List Char) :
    stripJsonWs (l ++ [b]) = stripJsonWs l := by
  induction l with
  | nil =>
    show stripJsonWs [b] = stripJsonWs []
    unfold stripJsonWs
    rw [show [b].dropWhile jsonWs = [] by simp [List.dropWhile_cons, hb]]
    rfl
  | cons a l' ih =>
    cases ha : jsonWs a with
    | true =>
      rw [List.cons_append, stripJsonWs_cons_ws ha, stripJsonWs_cons_ws ha]
      exact ih
    | false =>
      have h1 : stripJsonWs ((a :: l') ++ [b])
          = (List.dropWhile jsonWs (l'.reverse ++ [a])).reverse := by
        unfold stripJsonWs
        rw [List.cons_append, list_dropWhile_cons_false ha]
        rw [show (a :: (l' ++ [b])).reverse = b :: (l'.reverse ++ [a]) by simp]
        rw [list_dropWhile_cons_true hb]
      have h2 : stripJsonWs (a :: l')
          = (List.dropWhile jsonWs (l'.reverse ++ [a])).reverse := by
        unfold stripJsonWs
        rw [list_dropWhile_cons_false ha]
        rw [show (a :: l').reverse = l'.reverse ++ [a] by simp]
      rw [h1, h2]

/-- The `json.loads` model depends on its input only through the stripped core. -/
theorem json_loads_congr {s t : List Char} (h : stripJsonWs s = stripJsonWs t) :
    json_loads s = json_loads t := by
  unfold json_loads
  rw [h]

/-- Appending strings concatenates their character data. -/
theorem string_data_append (a b : String) : (a ++ b).data = a.data ++ b.data := rfl

/-- Fence-cleaning a wrapped payload: stripping is the identity (backtick
ends), the leading marker is removed as an exact occurrence, no occurrence of
either pattern spans the two newline boundaries, and the trailing marker is
removed whole.  What remains is the cleaned payload padded with one newline
on each side. -/
theorem fence_clean_wrap (B : List Char) :
    pyReplace "```".data [] (pyReplace "```json".data []
        (pyStripList ("```json\n".data ++ B ++ "\n```".data)))
      = '\n' :: ((pyReplace "```".data [] (pyReplace "```json".data [] B)) ++ ['\n']) := by
  have hstrip : pyStripList ("```json\n".data ++ B ++ "\n```".data)
      = "```json\n".data ++ B ++ "\n```".data := by
    have hshape : "```json\n".data ++ B ++ "\n```".data
        = '\x60' :: (("``json".data ++ ['\n'] ++ B ++ ('\n' :: "``".data)) ++ ['\x60']) := by
      rw [show "```json\n".data = '\x60' :: ("``json".data ++ ['\n']) from by decide]
      rw [show "\n```".data = ('\n' :: "``".data) ++ ['\x60'] from by decide]
      simp
    rw [hshape, pyStripList_of_ends (by decide) (by decide), ← hshape]
  rw [hstrip]
  have hshape2 : "```json\n".data ++ B ++ "\n```".data
      = "```json".data ++ ('\n' :: (B ++ ('\n' :: "```".data))) := by
    rw [show "```json\n".data = "```json".data ++ ['\n'] from by decide]
    rw [show "\n```".data = '\n' :: "```".data from by decide]
    simp
  rw [hshape2]
  rw [pyReplace_exact _ _ _ (by decide)]
  rw [List.nil_append]
  rw [pyReplace_cons_not_mem "```json".data [] '\n' (by decide)]
  rw [pyReplace_append_cons "```json".data [] '\n' (by decide)]
  rw [pyReplace_cons_not_mem "```json".data [] '\n' (by decide)]
  rw [show pyReplace "```json".data [] "```".data = "```".data from by decide]
  rw [pyReplace_cons_not_mem "```".data [] '\n' (by decide)]
  rw [pyReplace_append_cons "```".data [] '\n' (by decide)]
  rw [pyReplace_cons_not_mem "```".data [] '\n' (by decide)]
  rw [show pyReplace "```".data [] "```".data = ([] : List Char) from by decide]

/-- A character failing the predicate survives `dropWhile`. -/
theorem mem_dropWhile_of_not {p : Char → Bool} {c : Char} (hc : p c = false) :
    ∀ {s : List Char}, c ∈ s → c ∈ s.dropWhile p := by
  intro s h
  induction s with
  | nil => simp at h
  | cons a r ih =>
    cases ha : p a with
    | true =>
      rw [list_dropWhile_cons_true ha]
      rcases List.mem_cons.mp h with rfl | hr
      · rw [ha] at hc; cases hc
      · exact ih hr
    | false =>
      rw [list_dropWhile_cons_false ha]
      exact h

/-- A non-whitespace character survives `str.strip()`. -/
theorem mem_pyStripList {c : Char} (hc : isPyWs c = false) {s : List Char}
    (h : c ∈ s) : c ∈ pyStripList s := by
  unfold pyStripList
  rw [List.mem_reverse]
  apply mem_dropWhile_of_not hc
  rw [List.mem_reverse]
  exact mem_dropWhile_of_not hc h

/-- A character that is no sign survives the optional sign. -/
theorem mem_parseSign_snd {c : Char} (h1 : c ≠ '+') (h2 : c ≠ '-') {s : List Char}
    (h : c ∈ s) : c ∈ (parseSign s).2 := by
  cases s with
  | nil => simp at h
  | cons a r =>
    unfold parseSign
    rcases List.mem_cons.mp h with rfl | hr
    · have hp : (c == '+') = false := beq_eq_false_iff_ne.mpr h1
      have hm : (c == '-') = false := beq_eq_false_iff_ne.mpr h2
      simp [hp, hm]
    · cases hp : a == '+' with
      | true => simpa [hp] using hr
      | false =>
        cases hm : a == '-' with
        | true => simpa [hp, hm] using hr
        | false =>
          simp [hp, hm]
          exact Or.inr hr

/-- Same statement for the integer-valued sign helper. -/
theorem mem_parseIntSign_snd {c : Char} (h1 : c ≠ '+') (h2 : c ≠ '-') {s : List Char}
    (h : c ∈ s) : c ∈ (parseIntSign s).2 := by
  cases s with
  | nil => simp at h
  | cons a r =>
    unfold parseIntSign
    rcases List.mem_cons.mp h with rfl | hr
    · have hp : (c == '+') = false := beq_eq_false_iff_ne.mpr h1
      have hm : (c == '-') = false := beq_eq_false_iff_ne.mpr h2
      simp [hp, hm]
    · cases hp : a == '+' with
      | true => simpa [hp] using hr
      | false =>
        cases hm : a == '-' with
        | true => simpa [hp, hm] using hr
        | false =>
          simp [hp, hm]
          exact Or.inr hr

/-- A non-digit, non-dot character survives the optional fractional part. -/
theorem mem_parseFracPart_snd {c : Char} (hdot : c ≠ '.') (hdig : c.isDigit = false)
    {s : List Char} (h : c ∈ s) : c ∈ (parseFracPart s).2 := by
  cases s with
  | nil => simp at h
  | cons a r =>
    unfold parseFracPart
    rcases List.mem_cons.mp h with rfl | hr
    · have hd : (c == '.') = false := beq_eq_false_iff_ne.mpr hdot
      simp [hd]
    · cases hd : a == '.' with
      | true =>
        simp only [hd, if_true]
        exact mem_dropWhile_of_not hdig hr
      | false =>
        simp [hd]
        exact Or.inr hr

/-- The exponent stage rejects any rest containing a character that is not a
digit, a sign, or the exponent letter. -/
theorem parseExpPart_none_of_mem {c : Char} (he : c ≠ 'e') (hE : c ≠ 'E') (hp : c ≠ '+')
    (hm : c ≠ '-') (hdig : c.isDigit = false) {s : List Char} (h : c ∈ s) :
    parseExpPart s = none := by
  cases s with
  | nil => simp at h
  | cons a r =>
    unfold parseExpPart
    cases hcond : (a == 'e' || a == 'E') with
    | false => simp [hcond]
    | true =>
      have hca : c ≠ a := by
        intro hcc
        subst hcc
        rcases Bool.or_eq_true_iff.mp hcond with h1 | h1
        · exact he (beq_iff_eq.mp h1)
        · exact hE (beq_iff_eq.mp h1)
      have hr : c ∈ r := by
        rcases List.mem_cons.mp h with h1 | h1
        · exact absurd h1 hca
        · exact h1
      have h1 : c ∈ (parseIntSign r).2 := mem_parseIntSign_snd hp hm hr
      have h2 : c ∈ (parseIntSign r).2.dropWhile Char.isDigit :=
        mem_dropWhile_of_not hdig h1
      have h3 : ((parseIntSign r).2.dropWhile Char.isDigit).isEmpty = false := by
        cases hrest : (parseIntSign r).2.dropWhile Char.isDigit with
        | nil => rw [hrest] at h2; simp at h2
        | cons x xs => rfl
      simp [hcond, h3]

/-- Python `float(...)` fails on any string containing the letter `m`. -/
theorem pyFloatCore_none_of_mem_m {s : List Char} (h : 'm' ∈ s) : pyFloatCore s = none := by
  have h1 : 'm' ∈ (parseSign s).2 := mem_parseSign_snd (by decide) (by decide) h
  have h2 : 'm' ∈ (parseSign s).2.dropWhile Char.isDigit :=
    mem_dropWhile_of_not (by decide) h1
  have h3 : 'm' ∈ (parseFracPart ((parseSign s).2.dropWhile Char.isDigit)).2 :=
    mem_parseFracPart_snd (by decide) (by decide) h2
  have h4 : parseExpPart (parseFracPart ((parseSign s).2.dropWhile Char.isDigit)).2 = none :=
    parseExpPart_none_of_mem (by decide) (by decide) (by decide) (by decide) (by decide) h3
  unfold pyFloatCore
  dsimp only
  split
  · rfl
  · rw [h4]

/-- Python `float(...)` fails on any string containing the letter `m`, with the
whitespace stripping of `float` taken into account. -/
theorem parsePyFloat_none_of_mem_m {s : List Char} (h : 'm' ∈ s) : parsePyFloat s = none := by
  unfold parsePyFloat
  exact pyFloatCore_none_of_mem_m (mem_pyStripList (by decide) h)

/-! ## Claim theorems -/

/-- C1 (amended): after fence-stripping, a payload that is not parseable JSON
fails with MalformedOutput, and that is the only failure: the source performs
no schema validation, so a parsed JSON value lacking the required top-level
keys of the TaskKind is accepted rather than failing with SchemaMismatch. -/
theorem C1_parse_failure_modes (raw : String) (kind : TaskKind) :
    parse raw kind ≠ Except.error ParseFailure.schemaMismatch
      ∧ (parse raw kind = Except.error ParseFailure.malformedOutput
          ↔ json_loads (fence_clean raw) = none) := by
  unfold parse
  cases h : json_loads (fence_clean raw) with
  | none => simp
  | some j => simp

/-- C1 counterexample: the payload consisting of an empty JSON object, parsed
for FinancialAnalysis, lacks the required key `revenue_analysis`, yet `parse`
succeeds with the empty record instead of failing with SchemaMismatch as the
claim requires. -/
theorem C1_counterexample :
    parse "\x7b\x7d" TaskKind.financialAnalysis = Except.ok (Json.obj [])
      ∧ Json.hasKey (Json.obj []) "revenue_analysis" = false
      ∧ parse "\x7b\x7d" TaskKind.financialAnalysis
          ≠ Except.error ParseFailure.schemaMismatch := by
  refine ⟨rfl, rfl, fun h => ?_⟩
  rw [show parse "\x7b\x7d" TaskKind.financialAnalysis = Except.ok (Json.obj []) from rfl] at h
  exact Except.noConfusion h

/-- C2 (confirmed): for every JSON object, parsing its serialization wrapped
in markdown fences gives exactly the result of parsing the bare
serialization: the fences are transparent to the parser. -/
theorem C2_fence_roundtrip (kvs : List (String × Json)) (kind : TaskKind) :
    parse ("```json\n" ++ Json.serialize (Json.obj kvs) ++ "\n```") kind
      = parse (Json.serialize (Json.obj kvs)) kind := by
  have hser : (Json.serialize (Json.obj kvs)).data
      = '\x7b' :: ((serializeMembers kvs).data ++ ['\x7d']) := by
    rw [show Json.serialize (Json.obj kvs)
        = "\x7b" ++ serializeMembers kvs ++ "\x7d" from rfl]
    rw [string_data_append, string_data_append]
    simp [show ("\x7b" : String).data = ['\x7b'] from by decide,
      show ("\x7d" : String).data = ['\x7d'] from by decide]
  have hstripB : pyStripList (Json.serialize (Json.obj kvs)).data
      = (Json.serialize (Json.obj kvs)).data := by
    rw [hser]
    exact pyStripList_of_ends (by decide) (by decide) _
  have hfc : fence_clean ("```json\n" ++ Json.serialize (Json.obj kvs) ++ "\n```")
      = '\n' :: (fence_clean (Json.serialize (Json.obj kvs)) ++ ['\n']) := by
    unfold fence_clean
    rw [string_data_append, string_data_append, fence_clean_wrap, hstripB]
  have hjson : json_loads (fence_clean ("```json\n" ++ Json.serialize (Json.obj kvs) ++ "\n```"))
      = json_loads (fence_clean (Json.serialize (Json.obj kvs))) := by
    apply json_loads_congr
    rw [hfc, stripJsonWs_cons_ws (by decide), stripJsonWs_append_ws (by decide)]
  unfold parse
  rw [hjson]

/-- C3 (confirmed): for every input string whatsoever, the embedded parse is
total and its result is a structured record or the MalformedOutput failure;
no other failure kind (and no exception) can come out of it. -/
theorem C3_parse_total (raw : String) (kind : TaskKind) :
    (∃ j, parse raw kind = Except.ok j)
      ∨ parse raw kind = Except.error ParseFailure.malformedOutput := by
  unfold parse
  cases h : json_loads (fence_clean raw) with
  | none => right; rfl
  | some j => left; exact ⟨j, rfl⟩

/-- C4 (confirmed): the five documented normalizer examples, computed on the
embedded `parse_financial_value`. -/
theorem C4_normalizer_examples :
    parse_financial_value (PyVal.str "$100B") = 100000000000
      ∧ parse_financial_value (PyVal.str "15%") = 15
      ∧ parse_financial_value (PyVal.str "20.5M") = 20500000
      ∧ parse_financial_value (PyVal.str "abc") = 0
      ∧ parse_financial_value (PyVal.int 42) = 42 := by
  refine ⟨?_, ?_, ?_, ?_, ?_⟩
  · rw [show parse_financial_value (PyVal.str "$100B")
        = (100 : ℚ) * 10 ^ (0 : ℕ) * 1000000000 from rfl]
    norm_num
  · rw [show parse_financial_value (PyVal.str "15%")
        = (15 : ℚ) * 10 ^ (0 : ℕ) * 1 from rfl]
    norm_num
  · rw [show parse_financial_value (PyVal.str "20.5M")
        = ((20 : ℚ) + (5 : ℚ) / 10 ^ (1 : ℕ)) * 10 ^ (0 : ℕ) * 1000000 from rfl]
    norm_num
  · rfl
  · show ((42 : ℤ) : ℚ) = 42
    norm_num

/-- C5 counterexample: `"1bm"` contains both suffix letters; the billions
branch is taken but only the `b` is removed, `float("1m")` fails, and the
result is the fallback 0 — not the numeric remainder times 10⁹ (which would
be 10⁹). -/
theorem C5_counterexample :
    parse_financial_value (PyVal.str "1bm") = 0 ∧ (0 : ℚ) ≠ 1 * 10 ^ (9 : ℕ) := by
  constructor
  · rfl
  · norm_num

/-- C5 (amended): suffix detection checks `b` before `m`: whenever the
cleaned string contains `b`, the billions branch is taken (multiplier 10⁹ and
only the `b` characters removed) even if `m` is also present; and when both
letters are present, the leftover `m` makes the numeric conversion fail, so
the result is the fallback 0 rather than a value times 10⁹. -/
theorem C5_amended (s : String) (hb : (pfv_clean s).contains 'b' = true) :
    parse_financial_value (PyVal.str s)
        = (match parsePyFloat (pyReplace ['b'] [] (pfv_clean s)) with
           | some q => q * 1000000000
           | none => 0)
      ∧ ((pfv_clean s).contains 'm' = true → parse_financial_value (PyVal.str s) = 0) := by
  have hmain : parse_financial_value (PyVal.str s)
      = (match parsePyFloat (pyReplace ['b'] [] (pfv_clean s)) with
         | some q => q * 1000000000
         | none => 0) := by
    unfold parse_financial_value
    dsimp only
    rw [hb]
    simp
  refine ⟨hmain, fun hm => ?_⟩
  have hmem : 'm' ∈ pfv_clean s := by
    simpa using hm
  have hmem2 : 'm' ∈ pyReplace ['b'] [] (pfv_clean s) :=
    mem_pyReplace_of_not_mem ['b'] [] 'm' (by decide) _ hmem
  have hnone : parsePyFloat (pyReplace ['b'] [] (pfv_clean s)) = none :=
    parsePyFloat_none_of_mem_m hmem2
  rw [hmain, hnone]

/-- C5 witness: the amended statement at the concrete input `"2bm"`. -/
theorem C5_amended_witness :
    (pfv_clean "2bm").contains 'b' = true
      ∧ parse_financial_value (PyVal.str "2bm") = 0 :=
  ⟨by decide, (C5_amended "2bm" (by decide)).2 (by decide)⟩

/-- An empty filings result yields the not-found sentinel tuple. -/
theorem get_10k_ok_nil (ticker : String) (api : SecQuery → Except String (List Filing))
    (h : api (build_10k_query ticker) = Except.ok []) :
    get_10k_report_text ticker api = ("No 10-K filings found for this ticker.", none) := by
  unfold get_10k_report_text
  rw [h]

/-- C6 (confirmed): whenever the filings-search collaborator returns zero
filings for the ticker, `locate` returns exactly the not-found sentinel with
no document reference — never a partially filled filing reference. -/
theorem C6_locate_notfound (ticker : String) (api : SecQuery → Except String (List Filing))
    (h : api (build_10k_query ticker) = Except.ok []) :
    get_10k_report_text ticker api = ("No 10-K filings found for this ticker.", none) :=
  get_10k_ok_nil ticker api h

/-- C6 witness at a concrete ticker and collaborator. -/
theorem C6_locate_notfound_witness :
    get_10k_report_text "MSFT" (fun _ => Except.ok [])
      = ("No 10-K filings found for this ticker.", none) :=
  C6_locate_notfound "MSFT" (fun _ => Except.ok []) rfl

/-- C7 counterexample: with one filing whose `documentFormatFiles` is empty,
`locate` does not return the filing's detail link with an absent
`documentUrl`; the `IndexError` is caught and the generic fetch-error tuple
comes back instead. -/
theorem C7_counterexample :
    get_10k_report_text "MSFT"
        (fun _ => Except.ok [⟨"https://www.sec.gov/detail.htm", []⟩])
      = ("Could not fetch data from SEC EDGAR. Error: list index out of range", none)
      ∧ ("Could not fetch data from SEC EDGAR. Error: list index out of range",
          (none : Option String))
        ≠ ("https://www.sec.gov/detail.htm", (none : Option String)) := by
  constructor
  · rfl
  · decide

/-- C7 (amended): when the query succeeds with at least one filing but the
top filing's `documentFormatFiles` list is empty, the `IndexError` raised by
indexing it is caught by the generic handler and `locate` fails with the
"Could not fetch" error tuple; the absence of a direct document link is NOT
tolerated with a partial reference. -/
theorem C7_amended (ticker : String) (api : SecQuery → Except String (List Filing))
    (top : Filing) (rest : List Filing)
    (h : api (build_10k_query ticker) = Except.ok (top :: rest))
    (hdocs : top.documentFormatFiles = []) :
    get_10k_report_text ticker api
      = ("Could not fetch data from SEC EDGAR. Error: list index out of range", none) := by
  unfold get_10k_report_text
  rw [h]
  dsimp only
  rw [hdocs]

/-- C7 witness: the amended statement at concrete inputs. -/
theorem C7_amended_witness :
    get_10k_report_text "AAPL" (fun _ => Except.ok [⟨"https://www.sec.gov/d2.htm", []⟩])
      = ("Could not fetch data from SEC EDGAR. Error: list index out of range", none) :=
  C7_amended "AAPL" (fun _ => Except.ok [⟨"https://www.sec.gov/d2.htm", []⟩])
    ⟨"https://www.sec.gov/d2.htm", []⟩ [] rfl rfl

/-- C8 (confirmed): the Run Full Analysis handler replaces the session dict
with a fresh empty one before repopulating: after any `put` under any key,
the reset makes every `get` return absent; consequently the handler's result
does not depend on the previous session contents at all. -/
theorem C8_cache_reset :
    (∀ (st : AnalysisData) (k : String) (v : Json) (k' : String),
        get_data (reset_data (put_data st k v)) k' = none)
      ∧ ∀ (ticker : String) (api : SecQuery → Except String (List Filing))
          (st st' : AnalysisData),
          run_full_analysis ticker api st = run_full_analysis ticker api st' :=
  ⟨fun _ _ _ _ => rfl, fun _ _ _ _ => rfl⟩

/-- C9 (confirmed): with inline text (`is_url = false`) each of the three
prompt builders embeds exactly the first 30000 characters of the document
between fixed surrounding template text, so text beyond that length is
dropped; with a URL reference (`is_url = true`) the reference is embedded
whole and untruncated. -/
theorem C9_truncation :
    ((∃ p q : String, ∀ d : String,
        conduct_financial_analysis_prompt d false = p ++ d.take 30000 ++ q)
      ∧ (∃ p q : String, ∀ d : String,
        conduct_financial_analysis_prompt d true = p ++ d ++ q))
    ∧ ((∀ c : String, ∃ p q : String, ∀ d : String,
        conduct_swot_analysis_prompt d c false = p ++ d.take 30000 ++ q)
      ∧ (∀ c : String, ∃ p q : String, ∀ d : String,
        conduct_swot_analysis_prompt d c true = p ++ d ++ q))
    ∧ ((∀ c sh : String, ∃ p q : String, ∀ d : String,
        conduct_risk_simulation_prompt d c sh false = p ++ d.take 30000 ++ q)
      ∧ (∀ c sh : String, ∃ p q : String, ∀ d : String,
        conduct_risk_simulation_prompt d c sh true = p ++ d ++ q)) := by
  refine ⟨⟨⟨"\n    From the following 10-K report text: ", financial_prompt_tail,
      fun d => ?_⟩,
    ⟨"\n    From the 10-K report at the URL: ", financial_prompt_tail, fun d => ?_⟩⟩,
    ⟨fun c => ⟨"\n    " ++ ("From the following 10-K report text for " ++ c ++ ": "),
      swot_prompt_tail, fun d => ?_⟩,
     fun c => ⟨"\n    " ++ ("From the 10-K report for " ++ c ++ " at the URL: "),
      swot_prompt_tail, fun d => ?_⟩⟩,
    ⟨fun c sh => ⟨risk_prompt_head ++ ("From the following 10-K report text for " ++ c ++ ": "),
      risk_prompt_mid ++ sh ++ risk_prompt_tail, fun d => ?_⟩,
     fun c sh => ⟨risk_prompt_head ++ ("From the 10-K report for " ++ c ++ " at the URL: "),
      risk_prompt_mid ++ sh ++ risk_prompt_tail, fun d => ?_⟩⟩⟩ <;>
  simp [conduct_financial_analysis_prompt, financial_input_prompt,
    conduct_swot_analysis_prompt, swot_input_prompt,
    conduct_risk_simulation_prompt, risk_input_prompt, ← String.append_assoc]

/-- C10 (confirmed): the zero-filings sentinel does not contain the substring
`"Could not fetch"`, so the Run Full Analysis handler takes the success
branch, stores the sentinel as `filing_url` (with the ticker as
`company_name`) and reports success, letting the dashboard proceed as if a
filing had been resolved. -/
theorem C10_notfound_reported_success (ticker : String)
    (api : SecQuery → Except String (List Filing)) (st : AnalysisData)
    (h : api (build_10k_query ticker) = Except.ok []) :
    pyIn "Could not fetch" "No 10-K filings found for this ticker." = false
      ∧ (run_full_analysis ticker api st).success = true
      ∧ get_data (run_full_analysis ticker api st).data "filing_url"
          = some (Json.str "No 10-K filings found for this ticker.")
      ∧ get_data (run_full_analysis ticker api st).data "company_name"
          = some (Json.str ticker) := by
  have hget := get_10k_ok_nil ticker api h
  have hin : pyIn "Could not fetch" "No 10-K filings found for this ticker." = false := by
    decide
  have hrun : run_full_analysis ticker api st
      = ⟨[("filing_url", Json.str "No 10-K filings found for this ticker."),
          ("company_name", Json.str ticker)], true⟩ := by
    unfold run_full_analysis
    rw [hget]
    dsimp only
    rw [hin]
    simp [reset_data, put_data,
      show (("filing_url" : String) == "company_name") = false from by decide]
  refine ⟨hin, ?_, ?_, ?_⟩ <;>
  rw [hrun] <;>
  simp [get_data,
    show (("filing_url" : String) == "filing_url") = true from by decide,
    show (("company_name" : String) == "filing_url") = false from by decide,
    show (("company_name" : String) == "company_name") = true from by decide,
    show (("filing_url" : String) == "company_name") = false from by decide]

/-- C10 witness at a concrete ticker, collaborator, and prior session. -/
theorem C10_notfound_reported_success_witness :
    pyIn "Could not fetch" "No 10-K filings found for this ticker." = false
      ∧ (run_full_analysis "MSFT" (fun _ => Except.ok []) []).success = true
      ∧ get_data (run_full_analysis "MSFT" (fun _ => Except.ok []) []).data "filing_url"
          = some (Json.str "No 10-K filings found for this ticker.")
      ∧ get_data (run_full_analysis "MSFT" (fun _ => Except.ok []) []).data "company_name"
          = some (Json.str "MSFT") :=
  C10_notfound_reported_success "MSFT" (fun _ => Except.ok []) [] rfl
